import Mathlib

/-!
Verification of `mlb_hof_scraper/scraper.py`.

The scraper downloads the Hall-of-Fame voting-results page for a year and
parses the BBWAA voting table.  We shallowly embed the parsed DOM
(BeautifulSoup's tree) as an inductive `Node` tree, Python strings as
`List Char`, and Python exceptions as an explicit `PyError` sum; every
fallible Python function becomes an `Except PyError` valued Lean function
mirroring the source line by line.
-/

namespace MlbHof

/-- Python strings, modelled as lists of characters. -/
abbrev Str := List Char

/-- The DOM tree produced by BeautifulSoup.  `id` and `classes` model the
`id=` and `class=` attributes that bs4 matches specially; `attrs` holds the
remaining attributes (we only ever read `href`). -/
inductive Node where
  | tag (name : Str) (id : Option Str) (classes : List Str)
        (attrs : List (Str × Str)) (children : List Node)
  | text (s : Str)

mutual

/-- All descendants of a node satisfying `p`, in document (pre-)order:
bs4's `find_all`. -/
def findAllP (p : Node → Bool) : Node → List Node
  | .text _ => []
  | .tag _ _ _ _ ch => findAllListP p ch

/-- `findAllP` on a list of sibling subtrees, in document order. -/
def findAllListP (p : Node → Bool) : List Node → List Node
  | [] => []
  | x :: xs => (if p x then [x] else []) ++ findAllP p x ++ findAllListP p xs

end

/-- bs4 `find`: the first matching descendant, if any. -/
def find? (p : Node → Bool) (n : Node) : Option Node :=
  (findAllP p n).head?

/-- Matcher for `find("name")` / `tag("name")`. -/
def byName (nm : Str) : Node → Bool
  | .tag n _ _ _ _ => n == nm
  | .text _ => false

/-- Matcher for `find(id=...)`. -/
def byId (i : Str) : Node → Bool
  | .tag _ id _ _ _ => id == some i
  | .text _ => false

/-- Matcher for `find(class_=...)`. -/
def byClass (c : Str) : Node → Bool
  | .tag _ _ cs _ _ => cs.contains c
  | .text _ => false

mutual

/-- bs4 `get_text()`: concatenation of every text descendant. -/
def getText : Node → Str
  | .text s => s
  | .tag _ _ _ _ ch => getTextList ch

/-- `getText` over sibling subtrees. -/
def getTextList : List Node → Str
  | [] => []
  | x :: xs => getText x ++ getTextList xs

end

/-- bs4 `.string`: a single text child (recursing through a single tag
child); `None` otherwise. -/
def nodeString : Node → Option Str
  | .text s => some s
  | .tag _ _ _ _ [c] => nodeString c
  | .tag _ _ _ _ _ => none

/-- `tag["key"]`: attribute lookup (a missing key raises `KeyError`). -/
def getAttr? (key : Str) : Node → Option Str
  | .tag _ _ _ attrs _ => (attrs.find? (fun kv => kv.1 == key)).map Prod.snd
  | .text _ => none

/-- The whitespace characters removed by Python `str.strip()`
(ASCII fragment). -/
def isPySpace (c : Char) : Bool :=
  c == ' ' || c == '\t' || c == '\n' || c == '\r' || c == '\x0b' || c == '\x0c'

/-- Python `str.strip()`. -/
def pyStrip (s : Str) : Str :=
  ((s.dropWhile isPySpace).reverse.dropWhile isPySpace).reverse

/-- Python `str.lower()` (ASCII fragment). -/
def pyLower (s : Str) : Str := s.map Char.toLower

/-- Python `int()` on a string of decimal digits. -/
def digitsToNat (s : Str) : Nat :=
  s.foldl (fun a c => a * 10 + (c.toNat - 48)) 0

/-- The Python exceptions the scraper can raise. -/
inductive PyError where
  | attributeError (msg : Str)
  | valueError (msg : Str)
  | typeError (msg : Str)
  | indexError (msg : Str)
  | keyError (msg : Str)
  | runtimeError (msg : Str)
deriving DecidableEq, Repr

/-- `AttributeError` from dereferencing a `None` value (e.g. `None.find`). -/
def noneAttr (attrName : Str) : PyError :=
  .attributeError ("NoneType object has no attribute ".data ++ attrName)

/-- The character class `[A-Za-z.]` of the player-id pattern. -/
def isClass1 (c : Char) : Bool := c.isAlpha || c == '.'

/-- One attempted match of `([A-Za-z.]+\d+)(\.shtml$)` anchored at the start
of `s`, returning group 1.  Because the two character classes and the
literal `.shtml` are pairwise non-overlapping at their boundaries, Python's
greedy matching never backtracks here, so the match is the maximal
`[A-Za-z.]` run followed by the maximal digit run followed by `.shtml` at
the end of the string (`$` also accepts a single trailing newline). -/
def matchAt (s : Str) : Option Str :=
  let l := s.takeWhile isClass1
  let r1 := s.dropWhile isClass1
  let d := r1.takeWhile Char.isDigit
  let r2 := r1.dropWhile Char.isDigit
  if l ≠ [] ∧ d ≠ [] ∧ (r2 = ".shtml".data ∨ r2 = ".shtml".data ++ ['\n']) then
    some (l ++ d)
  else none

/-- Python `re.search` for the player-id pattern: the leftmost successful
match, returning group 1. -/
def searchGroup1 : Str → Option Str
  | [] => none
  | c :: cs =>
    match matchAt (c :: cs) with
    | some g => some g
    | none => searchGroup1 cs

/-- `BASE_URL` from the source. -/
def BASE_URL : Str := "https://www.baseball-reference.com/".data

/-- An HTTP response as seen through `requests`. -/
structure Response where
  ok : Bool
  text : Str

/-- The URL built by `_get_hof_html`. -/
def hofUrl (year : Int) : Str :=
  BASE_URL ++ "awards/hof_".data ++ (toString year).data ++ ".shtml".data

/-- `_get_hof_html`, instrumented: `get` is the `requests.get` oracle and
the second component records the list of requested URLs, in order. -/
def get_hof_html (get : Str → Response) (year : Int) :
    Except PyError Str × List Str :=
  let url := hofUrl year
  let response := get url
  if !response.ok then
    (.error (.runtimeError ("404 Response from ".data ++ url)), [url])
  else
    (.ok response.text, [url])

/-- `_parse_header`: column names from the second header row's `th` cells,
whitespace-stripped.  `header("tr")[1]` raises `IndexError` when there are
fewer than two rows. -/
def parse_header (header : Node) : Except PyError (List Str) :=
  match (findAllP (byName "tr".data) header)[1]? with
  | none => .error (.indexError ("list index out of range".data))
  | some tr1 =>
    .ok ((findAllP (byName "th".data) tr1).map (fun field => pyStrip (getText field)))

/-- `_get_total_ballots`: the leading digit run of the section heading's
first list item, via `re.match(r"^(\d+)")`.  A missing
`section_heading_text` node, a missing `li`, or a text not starting with a
digit each raise `AttributeError` (dereferencing `None`). -/
def get_total_ballots (tsh : Node) : Except PyError Int :=
  match find? (byClass "section_heading_text".data) tsh with
  | none => .error (noneAttr "find".data)
  | some sht =>
    match find? (byName "li".data) sht with
    | none => .error (noneAttr "get_text".data)
    | some li =>
      let t := getText li
      match t with
      | [] => .error (noneAttr "group".data)
      | c :: _ =>
        if c.isDigit then
          .ok (Int.ofNat (digitsToNat (pyStrip (t.takeWhile Char.isDigit))))
        else .error (noneAttr "group".data)

/-- `_get_player_id`: `player["href"]` then
`re.search(r"([A-Za-z.]+\d+)(\.shtml$)").group(1)`. -/
def get_player_id (player : Node) : Except PyError Str :=
  match getAttr? "href".data player with
  | none => .error (.keyError ("href".data))
  | some href =>
    match searchGroup1 href with
    | none => .error (noneAttr "group".data)
    | some pid => .ok pid

/-- A parsed record: the rank and cell texts (always present) followed by
the `player_id` field, which is `None` for a row without a hyperlink. -/
abbrev Record := List (Option Str)

/-- The `for item in items` loop of `_parse_table_body`: appends one field
per `td` (the anchor's text when the cell holds one, otherwise the cell's
text) and overwrites `player_id` with each anchor's id. -/
def parseItems (items : List Node) (acc : Record) (pid : Option Str) :
    Except PyError (Record × Option Str) :=
  match items with
  | [] => .ok (acc, pid)
  | item :: rest =>
    match find? (byName "a".data) item with
    | some player =>
      match get_player_id player with
      | .error e => .error e
      | .ok newPid => parseItems rest (acc ++ [some (getText player)]) (some newPid)
    | none => parseItems rest (acc ++ [some (getText item)]) pid

/-- The body of the `for row in rows` loop of `_parse_table_body`:
`row.find("th").get_text()` (an `AttributeError` when the row has no `th`),
then the cells, then the `player_id` appended at the end. -/
def parseRow (row : Node) : Except PyError Record :=
  match find? (byName "th".data) row with
  | none => .error (noneAttr "get_text".data)
  | some th =>
    match parseItems (findAllP (byName "td".data) row) [some (getText th)] none with
    | .error e => .error e
    | .ok (player_data, player_id) => .ok (player_data ++ [player_id])

/-- The `for row in rows` loop: accumulates one record per row, in order. -/
def parseRows : List Node → Except PyError (List Record)
  | [] => .ok []
  | row :: rest =>
    match parseRow row with
    | .error e => .error e
    | .ok r =>
      match parseRows rest with
      | .error e => .error e
      | .ok rs => .ok (r :: rs)

/-- `_parse_table_body`. -/
def parse_table_body (body : Node) : Except PyError (List Record) :=
  parseRows (findAllP (byName "tr".data) body)

/-- The result of `_parse_html_hof`: columns, total ballots, records. -/
abbrev ParseResult := List Str × Int × List Record

/-- The `ValueError` message for a year without voting results. -/
def noResultsMsg (year : Int) : Str :=
  "There are no voting results for the given year ".data ++ (toString year).data

/-- `_parse_html_hof`, mirroring the source's order of evaluation:
title check first; then `table.find("thead")` dereferences the table (an
`AttributeError` when `soup.find(id="hof_BBWAA")` returned `None`); then
`_parse_header`, `_get_total_ballots` (dereferencing the possibly-`None`
section heading), and `_parse_table_body`. -/
def parse_html_hof (soup : Node) (year : Int) : Except PyError ParseResult :=
  match find? (byName "title".data) soup with
  | none => .error (noneAttr "string".data)
  | some titleTag =>
    match nodeString titleTag with
    | none => .error (noneAttr "lower".data)
    | some t =>
      if ("hall of fame voting".data) <:+: pyLower t then
        match find? (byId "hof_BBWAA".data) soup with
        | none => .error (noneAttr "find".data)
        | some table =>
          let table_section_heading := find? (byId "hof_BBWAA_sh".data) soup
          match find? (byName "thead".data) table with
          | none => .error (.typeError ("NoneType object is not callable".data))
          | some header =>
            match parse_header header with
            | .error e => .error e
            | .ok columns =>
              match table_section_heading with
              | none => .error (noneAttr "find".data)
              | some tsh =>
                match get_total_ballots tsh with
                | .error e => .error e
                | .ok total_ballots =>
                  match find? (byName "tbody".data) table with
                  | none => .error (.typeError ("NoneType object is not callable".data))
                  | some body =>
                    match parse_table_body body with
                    | .error e => .error e
                    | .ok data => .ok (columns, total_ballots, data)
      else
        .error (.valueError (noResultsMsg year))

/-! ### Derived notions named by the specification -/

/-- The field text emitted for one data cell: the anchor's visible text
when the cell holds a hyperlink, the cell's own text otherwise (both raw,
exactly as `get_text()` returns them). -/
def cellText (item : Node) : Str :=
  match find? (byName "a".data) item with
  | some player => getText player
  | none => getText item

/-- The hyperlinks of a list of data cells, in cell order (at most one per
cell: `item.find("a")`). -/
def itemAnchors (items : List Node) : List Node :=
  items.filterMap (find? (byName "a".data))

/-- The hyperlinks of a row's data cells, in cell order. -/
def rowAnchors (row : Node) : List Node :=
  itemAnchors (findAllP (byName "td".data) row)

/-! ### Concrete example pages, used to instantiate the theorems -/

/-- A text node. -/
def mkText (s : String) : Node := .text s.data

/-- A plain tag with children only. -/
def mkTag (nm : String) (ch : List Node) : Node := .tag nm.data none [] [] ch

/-- A data cell holding a hyperlink. -/
def linkTd (href vis : String) : Node :=
  .tag "td".data none [] []
    [.tag "a".data none [] [("href".data, href.data)] [mkText vis]]

/-- A plain data cell. -/
def plainTd (s : String) : Node := mkTag "td" [mkText s]

/-- A body row with a hyperlinked entrant cell. -/
def rowHenderson : Node :=
  mkTag "tr" [mkTag "th" [mkText "1"],
              linkTd "/players/h/henderi01.shtml" "Rickey Henderson",
              plainTd "511", plainTd " 94.8% "]

/-- A body row without any hyperlink. -/
def rowPlain : Node :=
  mkTag "tr" [mkTag "th" [mkText "2"], plainTd " Jay Bell ", plainTd "3", plainTd "1%"]

/-- A table body with the two example rows. -/
def tbodyEx : Node := mkTag "tbody" [rowHenderson, rowPlain]

/-- A two-row table header, first (grouping) row to be skipped. -/
def theadEx : Node :=
  mkTag "thead" [mkTag "tr" [mkTag "th" [mkText "grouping"]],
                 mkTag "tr" [mkTag "th" [mkText " Rank "], mkTag "th" [mkText "Name"],
                             mkTag "th" [mkText "Votes"], mkTag "th" [mkText "Pct"]]]

/-- The second row of `theadEx`. -/
def theadExRow2 : Node :=
  mkTag "tr" [mkTag "th" [mkText " Rank "], mkTag "th" [mkText "Name"],
              mkTag "th" [mkText "Votes"], mkTag "th" [mkText "Pct"]]

/-- A section heading whose summary item starts with the ballot count. -/
def shGood : Node :=
  .tag "div".data (some "hof_BBWAA_sh".data) [] []
    [.tag "div".data none ["section_heading_text".data] []
      [mkTag "ul" [mkTag "li"
        [mkText "397 ballots cast, 317 (79.8%) required for election"]]]]

/-- The `li` node inside `shGood`. -/
def shGoodLi : Node :=
  mkTag "li" [mkText "397 ballots cast, 317 (79.8%) required for election"]

/-- A section heading whose summary item has leading whitespace before the
ballot count. -/
def shPadded : Node :=
  .tag "div".data (some "hof_BBWAA_sh".data) [] []
    [.tag "div".data none ["section_heading_text".data] []
      [mkTag "ul" [mkTag "li"
        [mkText " 397 ballots cast, 317 (79.8%) required for election"]]]]

/-- The `li` node inside `shPadded`: its trimmed text starts with digits,
its raw text does not. -/
def shPaddedLi : Node :=
  mkTag "li" [mkText " 397 ballots cast, 317 (79.8%) required for election"]

/-- A title tag that is not a voting-results title. -/
def titleBad : Node := mkTag "title" [mkText "Page Not Found"]

/-- A page whose title lacks the voting phrase (and has no table at all). -/
def soupBadTitle : Node := mkTag "html" [mkTag "head" [titleBad]]

/-- A voting-results title. -/
def titleGood : Node :=
  mkTag "title" [mkText "2026 Hall of Fame Voting | Baseball-Reference.com"]

/-- A page whose title passes the check but which has no results table. -/
def soupNoTable : Node := mkTag "html" [mkTag "head" [titleGood]]

/-- The results table built from the example header and body. -/
def tableEx : Node :=
  Node.tag "table".data (some "hof_BBWAA".data) [] [] [theadEx, tbodyEx]

/-- A complete, well-formed voting-results page. -/
def soupGood : Node :=
  mkTag "html" [mkTag "head" [titleGood], mkTag "body" [shGood, tableEx]]

/-- A page passing the title check, with a parseable table but no section
heading element. -/
def soupNoHeading : Node :=
  mkTag "html" [mkTag "head" [titleGood], mkTag "body" [tableEx]]

/-- The column names parsed from `theadEx`. -/
def cols4 : List Str := ["Rank".data, "Name".data, "Votes".data, "Pct".data]

/-- The records parsed from `tbodyEx`. -/
def recsEx : List Record :=
  [[some "1".data, some "Rickey Henderson".data, some "511".data,
    some " 94.8% ".data, some "henderi01".data],
   [some "2".data, some " Jay Bell ".data, some "3".data, some "1%".data, none]]

/-- The hyperlink of `rowHenderson`'s entrant cell. -/
def hendersonAnchor : Node :=
  Node.tag "a".data none [] [("href".data, "/players/h/henderi01.shtml".data)]
    [mkText "Rickey Henderson"]

/-- A hyperlink to `jonesab01`. -/
def anchorJones : Node :=
  Node.tag "a".data none [] [("href".data, "/players/j/jonesab01.shtml".data)]
    [mkText "Andruw Jones"]

/-- A hyperlink to `smithxy99`. -/
def anchorSmith : Node :=
  Node.tag "a".data none [] [("href".data, "/players/s/smithxy99.shtml".data)]
    [mkText "Lee Smith"]

/-- A row with two hyperlinked cells: the identifier must come from the
second (last) one. -/
def rowTwoLinks : Node :=
  mkTag "tr" [mkTag "th" [mkText "3"],
              Node.tag "td".data none [] [] [anchorJones],
              Node.tag "td".data none [] [] [anchorSmith],
              plainTd "7"]

/-- A row whose every text carries surrounding whitespace. -/
def rowPadded : Node :=
  mkTag "tr" [mkTag "th" [mkText " 1 "],
              Node.tag "td".data none [] []
                [Node.tag "a".data none [] [("href".data, "/players/h/henderi01.shtml".data)]
                  [mkText " Rickey Henderson "]],
              plainTd " 94.8% "]

/-- A `requests.get` oracle that always answers with a failing status. -/
def get404 : Str → Response := fun _ => ⟨false, []⟩

/-! ### Character-class facts -/

/-- A decimal digit is not a letter. -/
theorem isAlpha_false_of_isDigit (c : Char) (h : c.isDigit = true) :
    c.isAlpha = false := by
  simp only [Char.isDigit, Char.isAlpha, Char.isUpper, Char.isLower,
    Bool.and_eq_true, decide_eq_true_eq, Bool.or_eq_false_iff,
    Bool.and_eq_false_iff, decide_eq_false_iff_not, not_le] at h ⊢
  obtain ⟨h1, h2⟩ := h
  have h2n : c.val.toNat ≤ 57 := h2
  constructor
  · by_cases h65 : (65 : UInt32) ≤ c.val
    · have h65n : (65 : Nat) ≤ c.val.toNat := h65
      omega
    · exact Or.inl h65
  · by_cases h97 : (97 : UInt32) ≤ c.val
    · have h97n : (97 : Nat) ≤ c.val.toNat := h97
      omega
    · exact Or.inl h97

/-- A decimal digit is outside the `[A-Za-z.]` class. -/
theorem isClass1_false_of_isDigit (c : Char) (h : c.isDigit = true) :
    isClass1 c = false := by
  simp only [isClass1, Bool.or_eq_false_iff, beq_eq_false_iff_ne]
  refine ⟨isAlpha_false_of_isDigit c h, ?_⟩
  rintro rfl
  exact absurd h (by decide)

/-- A decimal digit is not stripped by `str.strip()`. -/
theorem isPySpace_false_of_isDigit (c : Char) (h : c.isDigit = true) :
    isPySpace c = false := by
  simp only [isPySpace, Bool.or_eq_false_iff, beq_eq_false_iff_ne]
  refine ⟨⟨⟨⟨⟨?_, ?_⟩, ?_⟩, ?_⟩, ?_⟩, ?_⟩ <;> (rintro rfl; exact absurd h (by decide))

/-! ### List helper lemmas -/

/-- `dropWhile` is the identity when no element satisfies the predicate. -/
theorem dropWhile_eq_self_of_all_false {p : Char → Bool} :
    ∀ s : Str, (∀ c ∈ s, p c = false) → s.dropWhile p = s
  | [], _ => rfl
  | c :: cs, h => by
    have hc : p c = false := h c (List.mem_cons_self c cs)
    simp [List.dropWhile, hc]

/-- `str.strip()` leaves an all-digit string unchanged. -/
theorem pyStrip_of_all_digits (s : Str) (h : ∀ c ∈ s, c.isDigit = true) :
    pyStrip s = s := by
  unfold pyStrip
  rw [dropWhile_eq_self_of_all_false s
    (fun c hc => isPySpace_false_of_isDigit c (h c hc))]
  rw [dropWhile_eq_self_of_all_false s.reverse
    (fun c hc => isPySpace_false_of_isDigit c (h c (List.mem_reverse.mp hc)))]
  exact List.reverse_reverse s

/-- `takeWhile` passes over a block all of whose elements satisfy `p`. -/
theorem takeWhile_append_of_all {p : Char → Bool} :
    ∀ (a rest : Str), (∀ c ∈ a, p c = true) →
      (a ++ rest).takeWhile p = a ++ rest.takeWhile p
  | [], _, _ => rfl
  | c :: cs, rest, h => by
    have hc : p c = true := h c (List.mem_cons_self c cs)
    simp only [List.cons_append, List.takeWhile_cons, hc, if_true]
    rw [takeWhile_append_of_all cs rest (fun x hx => h x (List.mem_cons_of_mem c hx))]

/-- `dropWhile` passes over a block all of whose elements satisfy `p`. -/
theorem dropWhile_append_of_all {p : Char → Bool} :
    ∀ (a rest : Str), (∀ c ∈ a, p c = true) →
      (a ++ rest).dropWhile p = rest.dropWhile p
  | [], _, _ => rfl
  | c :: cs, rest, h => by
    have hc : p c = true := h c (List.mem_cons_self c cs)
    simp only [List.cons_append, List.dropWhile_cons, hc, if_true]
    exact dropWhile_append_of_all cs rest (fun x hx => h x (List.mem_cons_of_mem c hx))

/-- `takeWhile` stops at a head that fails the predicate. -/
theorem takeWhile_eq_nil_of_head_false {p : Char → Bool} (c : Char) (cs : Str)
    (h : p c = false) : (c :: cs).takeWhile p = [] := by
  simp [List.takeWhile_cons, h]

/-- `dropWhile` keeps a list whose head fails the predicate. -/
theorem dropWhile_eq_self_of_head_false {p : Char → Bool} (c : Char) (cs : Str)
    (h : p c = false) : (c :: cs).dropWhile p = c :: cs := by
  simp [List.dropWhile_cons, h]

/-! ### Claim theorems -/

/-- C9: parsing is deterministic — for a fixed page tree and year, two
invocations of the parse stage yield identical results (`_parse_html_hof`
is a pure function of its inputs; it reads no state). -/
theorem parse_html_hof_deterministic (soup : Node) (year : Int) :
    parse_html_hof soup year = parse_html_hof soup year := rfl

/-- C5: on a page whose title text does not contain the case-insensitive
phrase `hall of fame voting`, parsing fails with the `ValueError` whose
message names the requested year — and it does so for *every* such page,
whether or not the section heading or table exist, i.e. the title check
precedes locating any substructure. -/
theorem title_check_rejects (soup titleTag : Node) (t : Str) (year : Int)
    (h1 : find? (byName "title".data) soup = some titleTag)
    (h2 : nodeString titleTag = some t)
    (h3 : ¬ ("hall of fame voting".data <:+: pyLower t)) :
    parse_html_hof soup year = .error (.valueError (noResultsMsg year)) ∧
    (toString year).data <:+ noResultsMsg year := by
  constructor
  · simp only [parse_html_hof, h1, h2, if_neg h3]
  · exact List.suffix_append _ _

/-- Witness for C5: a concrete page with title `Page Not Found` (and no
table at all) is rejected with the year-2050 message. -/
theorem title_check_rejects_witness :
    parse_html_hof soupBadTitle 2050 = .error (.valueError (noResultsMsg 2050)) ∧
    (toString (2050 : Int)).data <:+ noResultsMsg 2050 :=
  title_check_rejects soupBadTitle titleBad "Page Not Found".data 2050 rfl rfl
    (by decide)

/-- C6: with at least two header rows, `_parse_header` skips the first row
and returns, in order, the whitespace-trimmed text of every header cell of
the second header row. -/
theorem parse_header_uses_second_row (header tr1 : Node)
    (h : (findAllP (byName "tr".data) header)[1]? = some tr1) :
    parse_header header =
      .ok ((findAllP (byName "th".data) tr1).map (fun field => pyStrip (getText field))) := by
  unfold parse_header
  rw [h]

/-- Witness for C6: on a concrete two-row header, the result comes from the
second row and is trimmed (` Rank ` becomes `Rank`). -/
theorem parse_header_uses_second_row_witness :
    parse_header theadEx =
      .ok ((findAllP (byName "th".data) theadExRow2).map
        (fun field => pyStrip (getText field))) :=
  parse_header_uses_second_row theadEx theadExRow2 rfl

/-- C7: when the HTTP GET of the constructed URL answers with a non-success
status, `_get_hof_html` fails with the `RuntimeError` naming that URL,
after exactly one request (the request log is the one URL). -/
theorem get_hof_html_error_names_url (get : Str → Response) (year : Int)
    (h : (get (hofUrl year)).ok = false) :
    get_hof_html get year =
      (.error (.runtimeError ("404 Response from ".data ++ hofUrl year)), [hofUrl year]) ∧
    hofUrl year <:+ "404 Response from ".data ++ hofUrl year := by
  constructor
  · simp [get_hof_html, h]
  · exact List.suffix_append _ _

/-- Witness for C7: a 404-ing oracle and year 2007. -/
theorem get_hof_html_error_names_url_witness :
    get_hof_html get404 2007 =
      (.error (.runtimeError ("404 Response from ".data ++ hofUrl 2007)), [hofUrl 2007]) ∧
    hofUrl 2007 <:+ "404 Response from ".data ++ hofUrl 2007 :=
  get_hof_html_error_names_url get404 2007 rfl

/-- Counterexample to C3 as stated: the summary item of `shPadded` begins
with the digit run `397` *after trimming*, yet `_get_total_ballots` does not
return 397 — `re.match(r"^(\d+)")` is applied to the untrimmed text, whose
leading space makes the match fail, so `.group(0)` raises
`AttributeError`. -/
theorem get_total_ballots_padded_counterexample :
    (pyStrip (getText shPaddedLi)).take 3 = "397".data ∧
    get_total_ballots shPadded = .error (noneAttr "group".data) ∧
    get_total_ballots shPadded ≠ .ok 397 := by
  refine ⟨rfl, rfl, ?_⟩
  intro h
  exact Except.noConfusion h

/-- C3 (amended): when the summary item's *raw* text begins with a decimal
digit, `_get_total_ballots` returns exactly the leading digit run of that
raw text parsed as an integer, which is non-negative. -/
theorem get_total_ballots_leading_digits (tsh sht li : Node) (c : Char) (rest : Str)
    (h1 : find? (byClass "section_heading_text".data) tsh = some sht)
    (h2 : find? (byName "li".data) sht = some li)
    (h3 : getText li = c :: rest)
    (h4 : c.isDigit = true) :
    get_total_ballots tsh =
      .ok (Int.ofNat (digitsToNat ((getText li).takeWhile Char.isDigit))) ∧
    0 ≤ (Int.ofNat (digitsToNat ((getText li).takeWhile Char.isDigit))) := by
  refine ⟨?_, Int.ofNat_nonneg _⟩
  simp only [get_total_ballots, h1, h2, h3, h4, if_true]
  rw [pyStrip_of_all_digits _ (fun x hx => List.mem_takeWhile_imp hx)]

/-- Witness for C3 (amended): the concrete section heading `shGood` yields
397 ballots. -/
theorem get_total_ballots_leading_digits_witness :
    get_total_ballots shGood = .ok 397 ∧ 0 ≤ (397 : Int) :=
  get_total_ballots_leading_digits shGood
    (Node.tag "div".data none ["section_heading_text".data] []
      [mkTag "ul" [shGoodLi]]) shGoodLi '3'
    "97 ballots cast, 317 (79.8%) required for election".data rfl rfl rfl rfl

/-- Counterexample to C8 as stated: on a concrete page that passes the
title check but has no results table, parsing fails with the
`AttributeError` raised by dereferencing `None` at `table.find("thead")` —
a null-dereference failure, not a dedicated `StructureError` (the code
defines no such check or error type). -/
theorem missing_table_counterexample :
    parse_html_hof soupNoTable 2026 = .error (noneAttr "find".data) := rfl

/-- C8 (amended): after the title check passes, an absent results-table
element makes parsing fail with the `AttributeError` from dereferencing
`None` (`table.find("thead")`); likewise an absent section-heading element
(once the header has been parsed) fails inside `_get_total_ballots` with
the `AttributeError` from `None.find(class_=...)`.  No dedicated
`StructureError` exists. -/
theorem missing_structure_attribute_error (soup titleTag : Node) (t : Str) (year : Int)
    (h1 : find? (byName "title".data) soup = some titleTag)
    (h2 : nodeString titleTag = some t)
    (h3 : "hall of fame voting".data <:+: pyLower t) :
    (find? (byId "hof_BBWAA".data) soup = none →
      parse_html_hof soup year = .error (noneAttr "find".data)) ∧
    (∀ table cols,
      find? (byId "hof_BBWAA_sh".data) soup = none →
      find? (byId "hof_BBWAA".data) soup = some table →
      (∃ header, find? (byName "thead".data) table = some header ∧
        parse_header header = .ok cols) →
      parse_html_hof soup year = .error (noneAttr "find".data)) := by
  constructor
  · intro htab
    simp only [parse_html_hof, h1, h2, if_pos h3, htab]
  · rintro table cols hsh htab ⟨header, hhd, hcols⟩
    simp only [parse_html_hof, h1, h2, if_pos h3, htab, hhd, hcols, hsh]

/-- Witness for C8 (amended): the table-less page `soupNoTable` and the
heading-less page `soupNoHeading` both fail with the `AttributeError`. -/
theorem missing_structure_attribute_error_witness :
    parse_html_hof soupNoTable 2026 = .error (noneAttr "find".data) ∧
    parse_html_hof soupNoHeading 2026 = .error (noneAttr "find".data) :=
  ⟨(missing_structure_attribute_error soupNoTable titleGood
      "2026 Hall of Fame Voting | Baseball-Reference.com".data 2026 rfl rfl
      (by decide)).1 rfl,
   (missing_structure_attribute_error soupNoHeading titleGood
      "2026 Hall of Fame Voting | Baseball-Reference.com".data 2026 rfl rfl
      (by decide)).2 tableEx cols4 rfl rfl ⟨theadEx, rfl, rfl⟩⟩

/-! ### The cell loop of `_parse_table_body`, characterised -/

/-- Folding the initial `player_id` through a cons of successful ids. -/
theorem elim_getLast?_cons (pid : Str) (pids : List Str) (pid0 : Option Str) :
    (((pid :: pids).getLast?).elim pid0 some : Option Str) =
      ((pids.getLast?).elim (some pid) some) := by
  cases pids with
  | nil => rfl
  | cons b l =>
    rw [List.getLast?_cons_cons]
    cases hx : (b :: l).getLast? with
    | none => exact absurd (List.getLast?_eq_none_iff.mp hx) (by simp)
    | some x => rfl

/-- The cell loop, unrolled: when every anchor's id extraction succeeds
(`pids` lists the ids of the row's anchors, in order), the loop emits one
field per cell — the raw `cellText` — and ends with the id of the *last*
anchor, or the initial `pid0` when there is none. -/
theorem parseItems_spec (items : List Node) (acc : Record) (pid0 : Option Str)
    (pids : List Str)
    (h : List.Forall₂ (fun a pid => get_player_id a = .ok pid) (itemAnchors items) pids) :
    parseItems items acc pid0 =
      .ok (acc ++ items.map (fun item => some (cellText item)),
           (pids.getLast?).elim pid0 some) := by
  induction items generalizing acc pid0 pids with
  | nil =>
    have hnil : itemAnchors ([] : List Node) = [] := rfl
    rw [hnil] at h
    have hp : pids = [] := List.forall₂_nil_left_iff.mp h
    subst hp
    simp [parseItems]
  | cons item rest ih =>
    cases hfind : find? (byName "a".data) item with
    | some player =>
      have hanch : itemAnchors (item :: rest) = player :: itemAnchors rest := by
        simp [itemAnchors, List.filterMap_cons, hfind]
      rw [hanch] at h
      rcases List.forall₂_cons_left_iff.mp h with ⟨pid, pids', hok, hrest, rfl⟩
      simp only [parseItems, hfind, hok]
      rw [ih _ _ _ hrest]
      have hcell : cellText item = getText player := by
        simp [cellText, hfind]
      rw [elim_getLast?_cons]
      simp [hcell, List.append_assoc]
    | none =>
      have hanch : itemAnchors (item :: rest) = itemAnchors rest := by
        simp [itemAnchors, List.filterMap_cons, hfind]
      rw [hanch] at h
      simp only [parseItems, hfind]
      rw [ih _ _ _ h]
      have hcell : cellText item = getText item := by
        simp [cellText, hfind]
      simp [hcell, List.append_assoc]

/-- The row loop body, unrolled: the record is the raw rank text, the raw
cell texts in order, and finally the id of the last anchor (or `none`). -/
theorem parseRow_spec (row th : Node) (pids : List Str)
    (hth : find? (byName "th".data) row = some th)
    (hpids : List.Forall₂ (fun a pid => get_player_id a = .ok pid) (rowAnchors row) pids) :
    parseRow row =
      .ok (some (getText th) ::
           ((findAllP (byName "td".data) row).map (fun item => some (cellText item)) ++
            [(pids.getLast?).elim none some])) := by
  simp only [parseRow, hth]
  rw [parseItems_spec _ _ _ pids hpids]
  simp

/-- Each successful `parseItems` call emits exactly one field per cell. -/
theorem parseItems_ok_length (items : List Node) (acc : Record) (pid0 : Option Str)
    (out : Record) (pidf : Option Str)
    (h : parseItems items acc pid0 = .ok (out, pidf)) :
    out.length = acc.length + items.length := by
  induction items generalizing acc pid0 with
  | nil =>
    simp only [parseItems] at h
    cases h
    simp
  | cons item rest ih =>
    cases hfind : find? (byName "a".data) item with
    | some player =>
      cases hid : get_player_id player with
      | error e =>
        simp only [parseItems, hfind, hid] at h
        exact Except.noConfusion h
      | ok newPid =>
        simp only [parseItems, hfind, hid] at h
        have := ih _ _ h
        simp only [List.length_append, List.length_cons, List.length_nil] at this ⊢
        omega
    | none =>
      simp only [parseItems, hfind] at h
      have := ih _ _ h
      simp only [List.length_append, List.length_cons, List.length_nil] at this ⊢
      omega

/-- Each successful `parseRow` call yields a record of length
`2 + number of data cells` (rank, one field per cell, player id). -/
theorem parseRow_ok_length (row : Node) (r : Record)
    (h : parseRow row = .ok r) :
    r.length = 2 + (findAllP (byName "td".data) row).length := by
  cases hth : find? (byName "th".data) row with
  | none =>
    simp only [parseRow, hth] at h
    exact Except.noConfusion h
  | some th =>
    cases hitems : parseItems (findAllP (byName "td".data) row) [some (getText th)] none with
    | error e =>
      simp only [parseRow, hth, hitems] at h
      exact Except.noConfusion h
    | ok pr =>
      simp only [parseRow, hth, hitems] at h
      cases h
      have := parseItems_ok_length _ _ _ pr.1 pr.2 (by rw [hitems])
      simp only [List.length_append, List.length_cons, List.length_nil] at this ⊢
      omega

/-- A successful `parseRows` run produces exactly one record per row, in
order, each from its own row. -/
theorem parseRows_forall₂ (rows : List Node) (recs : List Record)
    (h : parseRows rows = .ok recs) :
    List.Forall₂ (fun row rec => parseRow row = .ok rec) rows recs := by
  induction rows generalizing recs with
  | nil =>
    simp only [parseRows] at h
    cases h
    exact List.Forall₂.nil
  | cons row rest ih =>
    cases hr : parseRow row with
    | error e =>
      simp only [parseRows, hr] at h
      exact Except.noConfusion h
    | ok r =>
      cases hrs : parseRows rest with
      | error e =>
        simp only [parseRows, hr, hrs] at h
        exact Except.noConfusion h
      | ok rs =>
        simp only [parseRows, hr, hrs] at h
        cases h
        exact List.Forall₂.cons hr (ih _ hrs)

/-- Each right-hand element of a `Forall₂` pair is related to some
left-hand element. -/
theorem forall₂_mem_right {α β : Type} {R : α → β → Prop} {l1 : List α}
    {l2 : List β} (h : List.Forall₂ R l1 l2) : ∀ b ∈ l2, ∃ a ∈ l1, R a b := by
  induction h with
  | nil => intro b hb; cases hb
  | cons h1 h2 ih =>
    intro b hb
    rcases List.mem_cons.mp hb with rfl | hb2
    · exact ⟨_, List.mem_cons_self _ _, h1⟩
    · obtain ⟨a, ha, hr⟩ := ih b hb2
      exact ⟨a, List.mem_cons_of_mem _ ha, hr⟩

/-- C1: on a structurally well-formed body (each row has a header cell and
`column count - 1` data cells), a successful parse yields exactly one
record per body row, in table order; every record has length
`column count + 1` (the last field being the derived identifier appended
after the cells), so all records in one result set have identical
length. -/
theorem parse_table_body_record_shape (body : Node) (cols : List Str)
    (recs : List Record)
    (hcols : 1 ≤ cols.length)
    (hwf : ∀ row ∈ findAllP (byName "tr".data) body,
      (find? (byName "th".data) row).isSome = true ∧
      (findAllP (byName "td".data) row).length = cols.length - 1)
    (hok : parse_table_body body = .ok recs) :
    List.Forall₂ (fun row rec => parseRow row = .ok rec)
      (findAllP (byName "tr".data) body) recs ∧
    recs.length = (findAllP (byName "tr".data) body).length ∧
    (∀ r ∈ recs, r.length = cols.length + 1) ∧
    (∀ r1 ∈ recs, ∀ r2 ∈ recs, r1.length = r2.length) := by
  have hfa : List.Forall₂ (fun row rec => parseRow row = .ok rec)
      (findAllP (byName "tr".data) body) recs :=
    parseRows_forall₂ _ _ hok
  have hlen : ∀ r ∈ recs, r.length = cols.length + 1 := by
    intro r hr
    obtain ⟨row, hrow, hparse⟩ := forall₂_mem_right hfa r hr
    have h2 := parseRow_ok_length row r hparse
    have h3 := (hwf row hrow).2
    omega
  refine ⟨hfa, hfa.length_eq.symm, hlen, ?_⟩
  intro r1 h1 r2 h2
  rw [hlen r1 h1, hlen r2 h2]

/-- Witness for C1: the concrete two-row body parses into two records of
length 5 = 4 columns + 1. -/
theorem parse_table_body_record_shape_witness :
    List.Forall₂ (fun row rec => parseRow row = .ok rec)
      (findAllP (byName "tr".data) tbodyEx) recsEx ∧
    recsEx.length = (findAllP (byName "tr".data) tbodyEx).length ∧
    (∀ r ∈ recsEx, r.length = cols4.length + 1) ∧
    (∀ r1 ∈ recsEx, ∀ r2 ∈ recsEx, r1.length = r2.length) :=
  parse_table_body_record_shape tbodyEx cols4 recsEx (by decide)
    (by
      intro row hrow
      have hl : findAllP (byName "tr".data) tbodyEx = [rowHenderson, rowPlain] := rfl
      rw [hl] at hrow
      rcases List.mem_cons.mp hrow with rfl | hrow2
      · exact ⟨rfl, rfl⟩
      · rcases List.mem_cons.mp hrow2 with rfl | hrow3
        · exact ⟨rfl, rfl⟩
        · cases hrow3)
    rfl

/-- C4: the record's final field is the identifier of the *last*
hyperlink-bearing data cell (sequential overwrite, later anchors win);
when no data cell holds a hyperlink, the final field is `none` and the
other fields are still populated from the cells' raw text. -/
theorem parse_row_last_hyperlink_wins (row th : Node) (pids : List Str)
    (hth : find? (byName "th".data) row = some th)
    (hpids : List.Forall₂ (fun a pid => get_player_id a = .ok pid) (rowAnchors row) pids) :
    (∃ r, parseRow row = .ok r ∧ r.getLast? = some ((pids.getLast?).elim none some)) ∧
    (rowAnchors row = [] →
      parseRow row = .ok (some (getText th) ::
        ((findAllP (byName "td".data) row).map (fun item => some (getText item)) ++
         [none]))) := by
  have hspec := parseRow_spec row th pids hth hpids
  constructor
  · refine ⟨_, hspec, ?_⟩
    rw [← List.cons_append]
    exact List.getLast?_concat _
  · intro hnone
    have hpnil : pids = [] := by
      rw [hnone] at hpids
      exact List.forall₂_nil_left_iff.mp hpids
    subst hpnil
    have hcells : ∀ item ∈ findAllP (byName "td".data) row,
        cellText item = getText item := by
      intro item hitem
      have : find? (byName "a".data) item = none :=
        List.forall_none_of_filterMap_eq_nil hnone item hitem
      simp [cellText, this]
    have hmap : (findAllP (byName "td".data) row).map (fun item => some (cellText item)) =
        (findAllP (byName "td".data) row).map (fun item => some (getText item)) :=
      List.map_congr_left (fun item hitem => by rw [hcells item hitem])
    rw [hspec, hmap]
    rfl

/-- Witness for C4: in a row with two hyperlinked cells, the identifier is
the second anchor's (`smithxy99`, not `jonesab01`); in a hyperlink-free row
the identifier field is `none` and the cell texts survive untouched. -/
theorem parse_row_last_hyperlink_wins_witness :
    (∃ r, parseRow rowTwoLinks = .ok r ∧
      r.getLast? = some (((["jonesab01".data, "smithxy99".data] : List Str).getLast?).elim none some)) ∧
    parseRow rowPlain = .ok (some (getText (mkTag "th" [mkText "2"])) ::
      ((findAllP (byName "td".data) rowPlain).map (fun item => some (getText item)) ++
       [none])) :=
  ⟨(parse_row_last_hyperlink_wins rowTwoLinks (mkTag "th" [mkText "3"])
      ["jonesab01".data, "smithxy99".data] rfl
      (List.Forall₂.cons rfl (List.Forall₂.cons rfl List.Forall₂.nil))).1,
   (parse_row_last_hyperlink_wins rowPlain (mkTag "th" [mkText "2"]) [] rfl
      List.Forall₂.nil).2 rfl⟩

/-- C10: body-row fields are emitted exactly as extracted — the rank is the
raw `th` text, each cell field is the raw anchor text or raw cell text
(`cellText`, no `strip()` anywhere) — in contrast to `_parse_header`, which
strips every column name. -/
theorem parse_row_fields_untrimmed (row th : Node) (pids : List Str)
    (hth : find? (byName "th".data) row = some th)
    (hpids : List.Forall₂ (fun a pid => get_player_id a = .ok pid) (rowAnchors row) pids) :
    parseRow row =
      .ok (some (getText th) ::
           ((findAllP (byName "td".data) row).map (fun item => some (cellText item)) ++
            [(pids.getLast?).elim none some])) ∧
    (∀ header tr1, (findAllP (byName "tr".data) header)[1]? = some tr1 →
      parse_header header =
        .ok ((findAllP (byName "th".data) tr1).map (fun field => pyStrip (getText field)))) := by
  refine ⟨parseRow_spec row th pids hth hpids, ?_⟩
  intro header tr1 h
  unfold parse_header
  rw [h]

/-- Witness for C10: in `rowPadded` every emitted field keeps its
surrounding whitespace (` 1 `, ` Rickey Henderson `, ` 94.8% `), while the
header cells of `theadEx` are trimmed. -/
theorem parse_row_fields_untrimmed_witness :
    parseRow rowPadded =
      .ok (some (getText (mkTag "th" [mkText " 1 "])) ::
           ((findAllP (byName "td".data) rowPadded).map (fun item => some (cellText item)) ++
            [(((["henderi01".data] : List Str).getLast?)).elim none some])) ∧
    (∀ header tr1, (findAllP (byName "tr".data) header)[1]? = some tr1 →
      parse_header header =
        .ok ((findAllP (byName "th".data) tr1).map (fun field => pyStrip (getText field)))) :=
  parse_row_fields_untrimmed rowPadded (mkTag "th" [mkText " 1 "])
    ["henderi01".data] rfl (List.Forall₂.cons rfl List.Forall₂.nil)

/-! ### The player-id pattern, characterised -/

/-- Decomposition of a successful anchored match of the player-id
pattern. -/
theorem matchAt_eq_some (s g : Str) (h : matchAt s = some g) :
    ∃ l d r2, g = l ++ d ∧ l ≠ [] ∧ (∀ c ∈ l, isClass1 c = true) ∧
      d ≠ [] ∧ (∀ c ∈ d, c.isDigit = true) ∧ s = l ++ (d ++ r2) ∧
      (r2 = ".shtml".data ∨ r2 = ".shtml".data ++ ['\n']) := by
  simp only [matchAt] at h
  split_ifs at h with hc
  · obtain ⟨hl, hd, hr2⟩ := hc
    injection h with hg
    refine ⟨s.takeWhile isClass1, (s.dropWhile isClass1).takeWhile Char.isDigit,
      (s.dropWhile isClass1).dropWhile Char.isDigit, hg.symm, hl,
      (fun c hc2 => List.mem_takeWhile_imp hc2), hd,
      (fun c hc2 => List.mem_takeWhile_imp hc2), ?_, hr2⟩
    rw [List.takeWhile_append_dropWhile (p := Char.isDigit) (l := List.dropWhile isClass1 s)]
    exact (List.takeWhile_append_dropWhile (p := isClass1) (l := s)).symm

/-- Construction: the anchored match succeeds on
`letters-periods ++ digits ++ ".shtml"` and captures exactly the two
runs. -/
theorem matchAt_concat (a d : Str) (ha : a ≠ []) (hac : ∀ c ∈ a, isClass1 c = true)
    (hd : d ≠ []) (hdc : ∀ c ∈ d, c.isDigit = true) :
    matchAt (a ++ (d ++ ".shtml".data)) = some (a ++ d) := by
  obtain ⟨d0, d2, rfl⟩ : ∃ d0 d2, d = d0 :: d2 := by
    cases d with
    | nil => exact absurd rfl hd
    | cons x xs => exact ⟨x, xs, rfl⟩
  have hd0 : Char.isDigit d0 = true := hdc d0 (List.mem_cons_self _ _)
  have hd0c : isClass1 d0 = false := isClass1_false_of_isDigit d0 hd0
  have htw : ((a ++ ((d0 :: d2) ++ ".shtml".data)).takeWhile isClass1) = a := by
    rw [takeWhile_append_of_all a _ hac, List.cons_append,
      takeWhile_eq_nil_of_head_false _ _ hd0c, List.append_nil]
  have hdw : ((a ++ ((d0 :: d2) ++ ".shtml".data)).dropWhile isClass1) =
      (d0 :: d2) ++ ".shtml".data := by
    rw [dropWhile_append_of_all a _ hac, List.cons_append,
      dropWhile_eq_self_of_head_false _ _ hd0c]
  have htw2 : (((d0 :: d2) ++ ".shtml".data).takeWhile Char.isDigit) = d0 :: d2 := by
    rw [takeWhile_append_of_all _ _ hdc]
    exact List.append_nil _
  have hdw2 : (((d0 :: d2) ++ ".shtml".data).dropWhile Char.isDigit) = ".shtml".data := by
    rw [dropWhile_append_of_all _ _ hdc]
    decide
  simp only [matchAt, htw, hdw, htw2, hdw2]
  simp [ha]

/-- `re.search` soundness: any returned group comes from an anchored match
on some suffix of the string. -/
theorem searchGroup1_sound : ∀ (s g : Str), searchGroup1 s = some g →
    ∃ t, t <:+ s ∧ matchAt t = some g
  | [], g, h => by simp [searchGroup1] at h
  | c :: cs, g, h => by
    cases hm : matchAt (c :: cs) with
    | some g2 =>
      simp only [searchGroup1, hm] at h
      injection h with h2
      exact ⟨c :: cs, List.suffix_refl _, by rw [hm, h2]⟩
    | none =>
      simp only [searchGroup1, hm] at h
      obtain ⟨t, hsuf, hmt⟩ := searchGroup1_sound cs g h
      exact ⟨t, hsuf.trans (List.suffix_cons c cs), hmt⟩

/-- `re.search` totality: if the anchored pattern matches on some suffix,
the search returns a group. -/
theorem searchGroup1_total : ∀ (s t g : Str), t <:+ s → matchAt t = some g →
    ∃ g2, searchGroup1 s = some g2
  | [], t, g, hsuf, hm => by
    have ht : t = [] := List.suffix_nil.mp hsuf
    subst ht
    exact Option.noConfusion hm
  | c :: cs, t, g, hsuf, hm => by
    cases hmc : matchAt (c :: cs) with
    | some g2 => exact ⟨g2, by simp [searchGroup1, hmc]⟩
    | none =>
      rcases List.suffix_cons_iff.mp hsuf with rfl | hsuf2
      · rw [hmc] at hm
        exact Option.noConfusion hm
      · obtain ⟨g2, h2⟩ := searchGroup1_total cs t g hsuf2 hm
        exact ⟨g2, by simp [searchGroup1, hmc, h2]⟩

/-- A nonempty suffix determines the last element. -/
theorem getLast?_of_suffix {t s : Str} (h : t <:+ s) (hne : t ≠ []) :
    s.getLast? = t.getLast? := by
  obtain ⟨pre, rfl⟩ := h
  exact List.getLast?_append_of_ne_nil pre hne

/-- C2: for a hyperlink whose `href` ends with one or more letters/periods,
then one or more digits, then the literal `.shtml` at the string's end,
`_get_player_id` returns a captured segment of exactly that shape whose
occurrence (followed by `.shtml`) is a suffix of the href; in particular,
for href `/players/h/henderi01.shtml` it returns `henderi01`. -/
theorem get_player_id_extracts_id (player : Node) (href p a d : Str)
    (hhref : getAttr? "href".data player = some href)
    (hsplit : href = p ++ (a ++ (d ++ ".shtml".data)))
    (ha : a ≠ []) (hac : ∀ c ∈ a, isClass1 c = true)
    (hd : d ≠ []) (hdc : ∀ c ∈ d, c.isDigit = true) :
    (∃ a2 d2, get_player_id player = .ok (a2 ++ d2) ∧ a2 ≠ [] ∧
      (∀ c ∈ a2, isClass1 c = true) ∧ d2 ≠ [] ∧ (∀ c ∈ d2, c.isDigit = true) ∧
      ((a2 ++ d2) ++ ".shtml".data) <:+ href) ∧
    get_player_id hendersonAnchor = .ok "henderi01".data := by
  refine ⟨?_, rfl⟩
  have hmt : matchAt (a ++ (d ++ ".shtml".data)) = some (a ++ d) :=
    matchAt_concat a d ha hac hd hdc
  have hsuf0 : (a ++ (d ++ ".shtml".data)) <:+ href := by
    rw [hsplit]
    exact List.suffix_append p _
  obtain ⟨g2, hg2⟩ := searchGroup1_total href _ _ hsuf0 hmt
  obtain ⟨t, hsuf, hmt2⟩ := searchGroup1_sound href g2 hg2
  obtain ⟨l, dd, r2, rfl, hl, hlc, hdd, hddc, rfl, hr2⟩ := matchAt_eq_some t g2 hmt2
  have htne : l ++ (dd ++ r2) ≠ [] := by
    intro h0
    exact hl (List.append_eq_nil.mp h0).1
  rcases hr2 with rfl | rfl
  · refine ⟨l, dd, ?_, hl, hlc, hdd, hddc, ?_⟩
    · simp only [get_player_id, hhref, hg2]
    · rw [List.append_assoc]
      exact hsuf
  · exfalso
    have hne2 : d ++ ".shtml".data ≠ [] := by
      intro h0
      exact hd (List.append_eq_nil.mp h0).1
    have hne3 : a ++ (d ++ ".shtml".data) ≠ [] := by
      intro h0
      exact ha (List.append_eq_nil.mp h0).1
    have h2 : href.getLast? = some 'l' := by
      rw [hsplit, List.getLast?_append_of_ne_nil _ hne3,
        List.getLast?_append_of_ne_nil _ hne2,
        List.getLast?_append_of_ne_nil _ (by decide : ".shtml".data ≠ [])]
      rfl
    have h3 : href.getLast? = some '\n' := by
      rw [getLast?_of_suffix hsuf htne, ← List.append_assoc, ← List.append_assoc]
      exact List.getLast?_concat _
    rw [h2] at h3
    exact absurd (Option.some.inj h3) (by decide)

/-- Witness for C2: the Henderson anchor. -/
theorem get_player_id_extracts_id_witness :
    (∃ a2 d2, get_player_id hendersonAnchor = .ok (a2 ++ d2) ∧ a2 ≠ [] ∧
      (∀ c ∈ a2, isClass1 c = true) ∧ d2 ≠ [] ∧ (∀ c ∈ d2, c.isDigit = true) ∧
      ((a2 ++ d2) ++ ".shtml".data) <:+ "/players/h/henderi01.shtml".data) ∧
    get_player_id hendersonAnchor = .ok "henderi01".data :=
  get_player_id_extracts_id hendersonAnchor "/players/h/henderi01.shtml".data
    "/players/h/".data "henderi".data "01".data rfl (by decide) (by decide)
    (by decide) (by decide) (by decide)

end MlbHof
